import Mathlib

/-!
Verification of the Personal Finance Agent transaction pipeline.

This file shallowly embeds the routing, categorization, anomaly-detection and
recurring-bill components of the repository (src/agents/routing.py,
categorization_agent.py, anomaly_detection_agent.py, bill_agent.py) and proves
or refutes the frozen behavioural claims about them.

Modelling conventions:
- pandas/numpy float arithmetic is modelled with exact rationals; every
  concrete input used below is far from any comparison boundary, so the float
  and rational verdicts coincide.
- comparisons of the form x > mean + k*std, whose right-hand side involves an
  irrational square root, are embedded by the equivalent squared comparison
  (x - mean > 0 and (x - mean)^2 > k^2 * variance), which is exact over the
  rationals; the z-score and category-score values actually stored by the
  source (which do involve a square root) are supplied by an explicit
  oracle parameter, and every theorem below holds for every oracle.
- fallible Python code (assertions, TypeError on a bad comparison, an
  exception thrown by the secondary classifier) is embedded with Except/sum
  result types.
-/

/-- Sum of a list of rationals (numpy / pandas sum). -/
def qsum (l : List ℚ) : ℚ := l.foldr (· + ·) 0

/-- Arithmetic mean (pandas Series.mean on the non-null values). Division by
zero yields 0 in ℚ; every use below is guarded exactly as the source guards
against the NaN it would produce. -/
def meanQ (l : List ℚ) : ℚ := qsum l / l.length

/-- Sample variance with ddof = 1, the square of pandas Series.std. -/
def sampleVar (l : List ℚ) : ℚ :=
  qsum (l.map (fun x => (x - meanQ l) ^ 2)) / (l.length - 1)

/-- Ascending sort of a list of rationals. -/
def sortQ (l : List ℚ) : List ℚ := l.insertionSort (· ≤ ·)

/-- Median (numpy.median / pandas Series.median): middle element of the sorted
list, or the average of the two middle elements for even length. -/
def medianQ (l : List ℚ) : ℚ :=
  let s := sortQ l
  let n := s.length
  if n = 0 then 0
  else if n % 2 = 1 then s.getD (n / 2) 0
  else (s.getD (n / 2 - 1) 0 + s.getD (n / 2) 0) / 2

/-- Quantile with linear interpolation, pandas Series.quantile default:
position h = p*(n-1), value = s[i] + (h-i)*(s[i+1]-s[i]) with i = floor h. -/
def quantileQ (l : List ℚ) (p : ℚ) : ℚ :=
  let s := sortQ l
  let n := s.length
  if n = 0 then 0
  else
    let h : ℚ := p * ((n : ℚ) - 1)
    let i : ℕ := (⌊h⌋).toNat
    let f : ℚ := h - i
    s.getD i 0 + f * (s.getD (min (i + 1) (n - 1)) 0 - s.getD i 0)

/-- Bool test whether the list `pre` is an initial segment of the second list. -/
def listPre : List Char → List Char → Bool
  | [], _ => true
  | _ :: _, [] => false
  | a :: as, b :: bs => a = b && listPre as bs

/-- Python substring containment `needle in hay` on character lists. -/
def strHasSub (hay needle : List Char) : Bool :=
  match hay with
  | [] => needle.isEmpty
  | _ :: t => listPre needle hay || strHasSub t needle

/-- Python `needle in hay` on strings. -/
def strIn (needle hay : String) : Bool := strHasSub hay.toList needle.toList

/-!
## Escalation router (src/agents/routing.py, route_transaction)
-/

/-- Python values, to the extent the router inspects them: None, a number
(int/float; a Python bool is its 0/1 numeric value), a string, or a dict
modelled as an association list (Python dicts have unique keys). -/
inductive PyVal where
  | pynone
  | num (q : ℚ)
  | str (s : String)
  | dict (entries : List (String × PyVal))
deriving Repr

/-- Dictionary key lookup; `none` for a missing key or a non-dict. -/
def PyVal.lookup : PyVal → String → Option PyVal
  | .dict es, k => (es.find? (fun e => e.1 = k)).map (·.2)
  | _, _ => none

/-- isinstance(v, dict). -/
def PyVal.isDict : PyVal → Bool
  | .dict _ => true
  | _ => false

/-- Exceptions route_transaction itself can raise: one of its three schema
assertions, or the TypeError Python raises when `rule_confidence >= 0.75`
compares a non-numeric value with a float.  (The dynamic parts of the
source's assertion messages are not modelled.) -/
inductive PyError where
  | assertionError
  | typeError
deriving Repr, DecidableEq

/-- Successful reply of the secondary (LLM) classifier:
`{category, confidence, reason}`. -/
structure LlmResult where
  category : String
  confidence : ℚ
  reason : String
deriving Repr, DecidableEq

/-- One call to `llm_agent.categorize`: either a well-formed reply or an
exception (any Exception, including the KeyError a malformed reply would
produce inside the try block, is caught by the source's `except Exception`). -/
inductive LlmOutcome where
  | ok (res : LlmResult)
  | exn (msg : String)
deriving Repr, DecidableEq

/-- Result dict of route_transaction.  `final_category` is whatever value sat
under the "category" key (the source copies it verbatim in the high-confidence
branch), a plain string in the other branches. -/
structure RouteResult where
  final_category : PyVal
  final_confidence : ℚ
  categorization_source : String
  llm_reason : Option String
deriving Repr

/-- route_transaction (src/agents/routing.py lines 1-48).  The three leading
asserts, then: confidence >= 0.75 accepts the rule verdict with source "rule";
0.40 <= confidence < 0.75 calls the secondary classifier, adopting its reply
on success and returning ("Uncategorized", 0.0, "fallback", str(e)) if it
raises; otherwise ("Uncategorized", rule_confidence, "rule_low_confidence",
None). -/
def route_transaction (rule_result : PyVal) (llm_agent : LlmOutcome) :
    Except PyError RouteResult :=
  if ¬ rule_result.isDict then .error .assertionError
  else if (rule_result.lookup "category").isNone then .error .assertionError
  else if (rule_result.lookup "category_confidence").isNone then .error .assertionError
  else
    match (rule_result.lookup "category_confidence").getD .pynone with
    | .num rule_confidence =>
      if rule_confidence ≥ 3/4 then
        .ok { final_category := (rule_result.lookup "category").getD .pynone
              final_confidence := rule_confidence
              categorization_source := "rule"
              llm_reason := none }
      else if 2/5 ≤ rule_confidence ∧ rule_confidence < 3/4 then
        match llm_agent with
        | .ok r =>
          .ok { final_category := .str r.category
                final_confidence := r.confidence
                categorization_source := "llm"
                llm_reason := some r.reason }
        | .exn e =>
          .ok { final_category := .str "Uncategorized"
                final_confidence := 0
                categorization_source := "fallback"
                llm_reason := some e }
      else
        .ok { final_category := .str "Uncategorized"
              final_confidence := rule_confidence
              categorization_source := "rule_low_confidence"
              llm_reason := none }
    | _ => .error .typeError

/-- Rule result dict as the rule categorizer produces it. -/
def mkRuleResult (category : String) (conf : ℚ) : PyVal :=
  .dict [("category", .str category), ("category_confidence", .num conf)]

/-- The per-transaction batch loop of main.py maps route_transaction over the
batch; each element is processed independently. -/
def route_batch (txs : List (PyVal × LlmOutcome)) : List (Except PyError RouteResult) :=
  txs.map (fun t => route_transaction t.1 t.2)

/-- Lookup of "category" in a well-formed rule result. -/
theorem mkRuleResult_lookup_category (c : String) (q : ℚ) :
    (mkRuleResult c q).lookup "category" = some (.str c) := rfl

/-- Lookup of "category_confidence" in a well-formed rule result. -/
theorem mkRuleResult_lookup_confidence (c : String) (q : ℚ) :
    (mkRuleResult c q).lookup "category_confidence" = some (.num q) := rfl

/-- Reduction of route_transaction on a well-formed rule result: the three
asserts pass and the confidence drives the three-way branch. -/
theorem route_transaction_mk (cat : String) (conf : ℚ) (llm : LlmOutcome) :
    route_transaction (mkRuleResult cat conf) llm =
      (if 3/4 ≤ conf then .ok ⟨.str cat, conf, "rule", none⟩
       else if 2/5 ≤ conf ∧ conf < 3/4 then
         (match llm with
          | .ok r => .ok ⟨.str r.category, r.confidence, "llm", some r.reason⟩
          | .exn e => .ok ⟨.str "Uncategorized", 0, "fallback", some e⟩)
       else .ok ⟨.str "Uncategorized", conf, "rule_low_confidence", none⟩) := by
  simp only [route_transaction, mkRuleResult_lookup_category, mkRuleResult_lookup_confidence,
    Option.isNone_some, Option.getD_some, ge_iff_le]
  simp [mkRuleResult, PyVal.isDict]

/-- Claim C2: a rule confidence of at least 0.75 (including exactly 0.75) is
accepted verbatim with source "rule" without consulting the secondary
classifier (the result is the same for every classifier behaviour `llm`);
a confidence in [0.40, 0.75) (including exactly 0.40) adopts the secondary
classifier's category, confidence and reason; a confidence below 0.40 yields
"Uncategorized" with the original rule confidence, source
"rule_low_confidence" and no classifier reason, again independently of the
classifier. -/
theorem routing_escalation_thresholds (cat : String) (conf : ℚ) (llm : LlmOutcome) :
    (3/4 ≤ conf →
      route_transaction (mkRuleResult cat conf) llm = .ok ⟨.str cat, conf, "rule", none⟩) ∧
    (2/5 ≤ conf → conf < 3/4 → ∀ r : LlmResult,
      route_transaction (mkRuleResult cat conf) (.ok r) =
        .ok ⟨.str r.category, r.confidence, "llm", some r.reason⟩) ∧
    (conf < 2/5 →
      route_transaction (mkRuleResult cat conf) llm =
        .ok ⟨.str "Uncategorized", conf, "rule_low_confidence", none⟩) := by
  refine ⟨fun h => ?_, fun h1 h2 r => ?_, fun h => ?_⟩ <;> rw [route_transaction_mk]
  · rw [if_pos h]
  · rw [if_neg (by linarith), if_pos ⟨h1, h2⟩]
  · rw [if_neg (by linarith), if_neg (by rintro ⟨h1, -⟩; linarith)]

/-- Witness for C2 at the confidences 0.75 (boundary), 0.5 and 0.3. -/
theorem routing_escalation_thresholds_witness :
    route_transaction (mkRuleResult "Food" (3/4)) (.exn "down") =
      .ok ⟨.str "Food", 3/4, "rule", none⟩ ∧
    route_transaction (mkRuleResult "Food" (1/2))
        (.ok ⟨"Subscriptions", 9/10, "streaming service"⟩) =
      .ok ⟨.str "Subscriptions", 9/10, "llm", some "streaming service"⟩ ∧
    route_transaction (mkRuleResult "Food" (3/10)) (.exn "down") =
      .ok ⟨.str "Uncategorized", 3/10, "rule_low_confidence", none⟩ :=
  ⟨(routing_escalation_thresholds "Food" (3/4) (.exn "down")).1 (by norm_num),
   (routing_escalation_thresholds "Food" (1/2)
      (.ok ⟨"Subscriptions", 9/10, "streaming service"⟩)).2.1 (by norm_num) (by norm_num) _,
   (routing_escalation_thresholds "Food" (3/10) (.exn "down")).2.2 (by norm_num)⟩

/-- Claim C3: when the secondary classifier raises during escalation, the
router returns category "Uncategorized", confidence 0, reason equal to the
failure description and the error-path source value "fallback", which is
distinct from the source value "rule_low_confidence" of the normal
low-confidence path; the call returns normally (Except.ok), so a batch
containing the failing transaction still processes every other transaction
exactly as it would alone. -/
theorem routing_classifier_failure (cat : String) (conf : ℚ) (msg : String)
    (h1 : 2/5 ≤ conf) (h2 : conf < 3/4) (pre post : List (PyVal × LlmOutcome)) :
    route_transaction (mkRuleResult cat conf) (.exn msg) =
      .ok ⟨.str "Uncategorized", 0, "fallback", some msg⟩ ∧
    ("fallback" : String) ≠ "rule_low_confidence" ∧
    route_batch (pre ++ [(mkRuleResult cat conf, .exn msg)] ++ post) =
      route_batch pre ++ [.ok ⟨.str "Uncategorized", 0, "fallback", some msg⟩] ++
        route_batch post := by
  have hmain : route_transaction (mkRuleResult cat conf) (.exn msg) =
      .ok ⟨.str "Uncategorized", 0, "fallback", some msg⟩ := by
    rw [route_transaction_mk, if_neg (by linarith), if_pos ⟨h1, h2⟩]
  refine ⟨hmain, by decide, ?_⟩
  simp only [route_batch, List.map_append, List.map_cons, List.map_nil, hmain]

/-- Witness for C3 at confidence 0.5 with a batch around the failing call. -/
theorem routing_classifier_failure_witness :
    route_transaction (mkRuleResult "Food" (1/2)) (.exn "API timeout") =
      .ok ⟨.str "Uncategorized", 0, "fallback", some "API timeout"⟩ ∧
    ("fallback" : String) ≠ "rule_low_confidence" ∧
    route_batch ([(mkRuleResult "Food" (9/10), .exn "API timeout")] ++
        [(mkRuleResult "Food" (1/2), .exn "API timeout")] ++
        [(mkRuleResult "Housing" (9/10), .exn "API timeout")]) =
      route_batch [(mkRuleResult "Food" (9/10), .exn "API timeout")] ++
        [.ok ⟨.str "Uncategorized", 0, "fallback", some "API timeout"⟩] ++
        route_batch [(mkRuleResult "Housing" (9/10), .exn "API timeout")] :=
  routing_classifier_failure "Food" (1/2) "API timeout" (by norm_num) (by norm_num)
    [(mkRuleResult "Food" (9/10), .exn "API timeout")]
    [(mkRuleResult "Housing" (9/10), .exn "API timeout")]

/-- Counterexample to claim C10: the rule_result
`{"category": "Food", "category_confidence": "high"}` contains both required
keys, so no assertion fires, yet route_transaction does not return a result:
the comparison `rule_confidence >= 0.75` raises a TypeError because the
confidence value is a string.  This refutes "for every rule_result containing
both keys no assertion fires and a result dictionary is always returned". -/
theorem routing_schema_guard_cex :
    route_transaction (.dict [("category", .str "Food"), ("category_confidence", .str "high")])
      (.exn "e") = .error .typeError := rfl

/-- Claim C10 (amended): route_transaction raises an AssertionError exactly
when rule_result is not a dict or lacks "category" or "category_confidence";
when both keys are present no assertion fires, and a result dictionary is
returned whenever the "category_confidence" value is numeric — a non-numeric
confidence instead raises a TypeError at the comparison with 0.75 (see the
counterexample). -/
theorem routing_schema_guard (v : PyVal) (llm : LlmOutcome) :
    (¬ v.isDict = true → route_transaction v llm = .error .assertionError) ∧
    (v.isDict = true → v.lookup "category" = none →
      route_transaction v llm = .error .assertionError) ∧
    (v.isDict = true → (v.lookup "category").isSome = true →
      v.lookup "category_confidence" = none →
      route_transaction v llm = .error .assertionError) ∧
    (v.isDict = true → (v.lookup "category").isSome = true →
      (v.lookup "category_confidence").isSome = true →
      route_transaction v llm ≠ .error .assertionError) ∧
    (∀ q : ℚ, v.isDict = true → (v.lookup "category").isSome = true →
      v.lookup "category_confidence" = some (.num q) →
      ∃ r : RouteResult, route_transaction v llm = .ok r) := by
  have hsn : ∀ (o : Option PyVal), o.isSome = true → ¬ o.isNone = true := by
    intro o h
    cases o <;> simp_all
  refine ⟨fun h => ?_, fun h1 h2 => ?_, fun h1 h2 h3 => ?_, fun h1 h2 h3 => ?_,
    fun q h1 h2 h3 => ?_⟩
  · simp only [route_transaction]
    rw [if_pos h]
  · simp only [route_transaction]
    rw [if_neg (not_not_intro h1), if_pos (by simp [h2])]
  · simp only [route_transaction]
    rw [if_neg (not_not_intro h1), if_neg (hsn _ h2), if_pos (by simp [h3])]
  · simp only [route_transaction]
    rw [if_neg (not_not_intro h1), if_neg (hsn _ h2), if_neg (hsn _ h3)]
    rcases hw : (v.lookup "category_confidence").getD .pynone with _ | p | s | es <;> simp
    split
    · simp
    · split
      · cases llm <;> simp
      · simp
  · simp only [route_transaction]
    rw [if_neg (not_not_intro h1), if_neg (hsn _ h2), if_neg (hsn _ (by simp [h3])), h3]
    simp only [Option.getD_some]
    split
    · exact ⟨_, rfl⟩
    · split
      · cases llm
        · exact ⟨_, rfl⟩
        · exact ⟨_, rfl⟩
      · exact ⟨_, rfl⟩

/-- Witness for C10 (amended): all five branches at concrete inputs. -/
theorem routing_schema_guard_witness :
    route_transaction (.num 3) (.exn "e") = .error .assertionError ∧
    route_transaction (.dict []) (.exn "e") = .error .assertionError ∧
    route_transaction (.dict [("category", .str "Food")]) (.exn "e") =
      .error .assertionError ∧
    route_transaction (mkRuleResult "Food" (9/10)) (.exn "e") ≠ .error .assertionError ∧
    ∃ r : RouteResult, route_transaction (mkRuleResult "Food" (9/10)) (.exn "e") = .ok r :=
  ⟨(routing_schema_guard (.num 3) (.exn "e")).1 (by decide),
   (routing_schema_guard (.dict []) (.exn "e")).2.1 (by decide) (by rfl),
   (routing_schema_guard (.dict [("category", .str "Food")]) (.exn "e")).2.2.1
     (by decide) (by decide) (by rfl),
   (routing_schema_guard (mkRuleResult "Food" (9/10)) (.exn "e")).2.2.2.1
     (by decide) (by decide) (by decide),
   (routing_schema_guard (mkRuleResult "Food" (9/10)) (.exn "e")).2.2.2.2 (9/10)
     (by decide) (by decide) (by rfl)⟩

/-!
## Rule categorizer (src/agents/categorization_agent.py)
-/

/-- ASCII lower-casing of one character (Python str.lower; all merchant text
and keywords in this development are ASCII). -/
def toLowerChar (c : Char) : Char :=
  if 'A' ≤ c ∧ c ≤ 'Z' then Char.ofNat (c.toNat + 32) else c

/-- Python merchant.lower() as a character list. -/
def lowerStr (s : String) : List Char := s.toList.map toLowerChar

/-- CATEGORY_RULES: the ordered category-to-keyword table, in declaration
order (Python dicts preserve insertion order). -/
def CATEGORY_RULES : List (String × List String) :=
  [("Food", ["mcdonald", "chipotle", "restaurant", "cafe", "starbucks"]),
   ("Transportation", ["uber", "lyft", "shell", "exxon", "chevron"]),
   ("Subscriptions", ["netflix", "spotify", "amazon prime"]),
   ("Utilities", ["electric", "water", "internet", "verizon"]),
   ("Housing", ["rent", "mortgage"])]

/-- `any(keyword in merchant_lower for keyword in keywords)` for one table
entry. -/
def ruleMatches (merchant_lower : List Char) (rule : String × List String) : Bool :=
  rule.2.any (fun kw => strHasSub merchant_lower kw.toList)

/-- CategorizationAgent.categorize for one transaction's merchant text:
scan CATEGORY_RULES in order, stop at the first entry with a matching
keyword (confidence 0.9); otherwise "Uncategorized" with confidence 0.3. -/
def categorize_merchant (merchant : String) : String × ℚ :=
  match CATEGORY_RULES.find? (ruleMatches (lowerStr merchant)) with
  | some rule => (rule.1, 9/10)
  | none => ("Uncategorized", 3/10)

/-- find? returns the element at the first index satisfying the predicate. -/
theorem find?_eq_of_first {α : Type} (p : α → Bool) (l : List α) (i : ℕ) (hi : i < l.length)
    (hp : p (l.get ⟨i, hi⟩) = true)
    (hbefore : ∀ j (hj : j < i), p (l.get ⟨j, lt_trans hj hi⟩) = false) :
    l.find? p = some (l.get ⟨i, hi⟩) := by
  induction l generalizing i with
  | nil => simp at hi
  | cons a t ih =>
    cases i with
    | zero =>
      simp only [List.get] at hp
      simp [List.find?, hp]
    | succ n =>
      have ha : p a = false := hbefore 0 (Nat.succ_pos n)
      simp only [List.get] at hp ha ⊢
      rw [List.find?]
      rw [ha]
      exact ih n (by simpa using hi) hp (fun j hj => hbefore (j + 1) (by omega))

/-- Claim C5: the categorizer scans CATEGORY_RULES in declaration order and
assigns the first category one of whose keywords is a literal substring of
the lower-cased merchant text, with confidence 0.9 — so when two categories
match, the earlier-declared one wins — and assigns "Uncategorized" with
confidence 0.3 when no keyword matches. -/
theorem categorizer_first_match (m : String) :
    (∀ i (hi : i < CATEGORY_RULES.length),
      ruleMatches (lowerStr m) (CATEGORY_RULES.get ⟨i, hi⟩) = true →
      (∀ j (hj : j < i), ruleMatches (lowerStr m) (CATEGORY_RULES.get ⟨j, lt_trans hj hi⟩) = false) →
      categorize_merchant m = ((CATEGORY_RULES.get ⟨i, hi⟩).1, 9/10)) ∧
    ((∀ rule ∈ CATEGORY_RULES, ruleMatches (lowerStr m) rule = false) →
      categorize_merchant m = ("Uncategorized", 3/10)) := by
  constructor
  · intro i hi hp hbefore
    rw [categorize_merchant, find?_eq_of_first (ruleMatches (lowerStr m)) _ i hi hp hbefore]
  · intro hnone
    rw [categorize_merchant, List.find?_eq_none.mpr ?_]
    intro a ha
    simp [hnone a ha]

/-- Witness for C5: "Uber Cafe" matches both "cafe" (Food, declared first)
and "uber" (Transportation, declared second) and gets Food; "Plumbus Emporium"
matches nothing and gets Uncategorized with confidence 0.3. -/
theorem categorizer_first_match_witness :
    categorize_merchant "Uber Cafe" = ("Food", 9/10) ∧
    categorize_merchant "Plumbus Emporium" = ("Uncategorized", 3/10) :=
  ⟨(categorizer_first_match "Uber Cafe").1 0 (by decide) (by decide) (by omega),
   (categorizer_first_match "Plumbus Emporium").2 (by decide)⟩

/-!
## Anomaly detector (src/agents/anomaly_detection_agent.py)

The agent is instantiated with its default thresholds (z_score_threshold=2.5,
iqr_multiplier=1.5), as in main.py.  The source stores a formatted reason
string per firing pass; since the claims only concern which pass recorded a
reason, reasons are embedded as tags.  The z-score and category-score values
the source stores are square roots (hence irrational); they are supplied by a
ScoreOracle parameter and every theorem holds for every oracle.  Conditions
of the form |x-mean|/std > t and x > mean + t*std are embedded by their exact
squared equivalents, valid whenever the guard std > 0 holds (it always does at
those points).
-/

/-- Which detection pass recorded a reason on a row. -/
inductive AnomalyReason where
  | zscore
  | iqrOutlier
  | categoryOutlier
  | unknownMerchant
  | largeTransaction
deriving Repr, DecidableEq

/-- One row of the transactions dataframe, restricted to the fields the
anomaly passes read and write.  `amount` is the value after
pd.to_numeric(errors="coerce"): `none` is NaN.  `category` is `none` for a
missing (NaN) category value. -/
structure ARow where
  amount : Option ℚ
  merchant : String := ""
  category : Option String := none
  is_anomaly : Bool := false
  anomaly_reason : List AnomalyReason := []
  anomaly_score : ℚ := 0
deriving Repr, DecidableEq

/-- The dataframe: its rows plus which optional columns exist. -/
structure ADFrame where
  rows : List ARow
  hasMerchant : Bool := true
  hasCategory : Bool := true
  hasDate : Bool := true

/-- Oracle supplying the stored z-score |x-mean|/std and category score
(x-mean)/std, which are irrational square roots in general. -/
structure ScoreOracle where
  zScore : ℚ → ℚ
  catScore : String → ℚ → ℚ

/-- Appending a reason: the source appends "; " + reason when a reason is
already present and assigns it otherwise — on tags both are list append. -/
def addReason (rs : List AnomalyReason) (r : AnomalyReason) : List AnomalyReason :=
  rs ++ [r]

/-- Z-score sub-pass body for one row: flag when |x-mean|/std > 2.5, i.e.
(x-mean)^2 > 2.5^2 * variance; only unflagged rows are updated (reason
assigned, score raised to max(score, z)). -/
def zUpd (O : ScoreOracle) (mean_amount variance : ℚ) (r : ARow) : ARow :=
  match r.amount with
  | some x =>
    if (x - mean_amount) ^ 2 > (5/2) ^ 2 * variance then
      if ¬ r.is_anomaly then
        { r with is_anomaly := true, anomaly_reason := [.zscore],
                 anomaly_score := max r.anomaly_score (O.zScore x) }
      else r
    else r
  | none => r

/-- IQR sub-pass body for one row: flag amounts outside [lb, ub]; only
unflagged rows are updated; score is the distance outside the bound
divided by the IQR. -/
def iqrUpd (lb ub iqr : ℚ) (r : ARow) : ARow :=
  match r.amount with
  | some x =>
    if x < lb ∨ ub < x then
      if ¬ r.is_anomaly then
        { r with is_anomaly := true,
                 anomaly_reason := addReason r.anomaly_reason .iqrOutlier,
                 anomaly_score := max r.anomaly_score
                   (if ub < x then (x - ub) / iqr else (lb - x) / iqr) }
      else r
    else r
  | none => r

/-- _detect_statistical_outliers: needs at least 3 rows and 3 valid amounts;
z-score sub-pass (skipped when std = 0) then IQR sub-pass (skipped when
IQR = 0; Q1/Q3 are linear-interpolation quantiles of the valid amounts). -/
def detect_statistical_outliers (O : ScoreOracle) (rows : List ARow) : List ARow :=
  if rows.length < 3 then rows
  else
    let amounts := rows.filterMap (fun r => r.amount)
    if amounts.length < 3 then rows
    else
      let mean_amount := meanQ amounts
      let variance := sampleVar amounts
      let rows1 := if 0 < variance then rows.map (zUpd O mean_amount variance) else rows
      let Q1 := quantileQ amounts (1/4)
      let Q3 := quantileQ amounts (3/4)
      let IQR := Q3 - Q1
      if 0 < IQR then
        rows1.map (iqrUpd (Q1 - (3/2) * IQR) (Q3 + (3/2) * IQR) IQR)
      else rows1

/-- _detect_category_outliers body for one row.  The source loops over the
distinct category values and flags, within each category of at least 2 rows
and 2 valid amounts with positive std, the rows whose amount exceeds
category_mean + 2*category_std; each row is affected only by its own
category's group (rows with NaN category match no group), so the loop is a
per-row update. -/
def catUpd (O : ScoreOracle) (rows : List ARow) (r : ARow) : ARow :=
  match r.category with
  | none => r
  | some c =>
    match r.amount with
    | none => r
    | some x =>
    let category_df := rows.filter (fun s => decide (s.category = some c))
    if category_df.length < 2 then r
    else
      let category_amounts := category_df.filterMap (fun s => s.amount)
      if category_amounts.length < 2 then r
      else
        let category_mean := meanQ category_amounts
        let category_var := sampleVar category_amounts
        if 0 < category_var then
          if decide (category_mean < x) && decide ((x - category_mean) ^ (2 : ℕ) > (2 : ℚ) ^ (2 : ℕ) * category_var) then
            if ¬ r.is_anomaly then
              { r with is_anomaly := true,
                       anomaly_reason := addReason r.anomaly_reason .categoryOutlier,
                       anomaly_score := max r.anomaly_score (O.catScore c x) }
            else r
          else r
        else r

/-- _detect_category_outliers: skipped when the category column is absent. -/
def detect_category_outliers (O : ScoreOracle) (hasCategory : Bool)
    (rows : List ARow) : List ARow :=
  if hasCategory then rows.map (catUpd O rows) else rows

/-- The fixed suspicious-merchant keyword list of _detect_unknown_merchants. -/
def suspicious_keywords : List String :=
  ["unknown", "payment", "card transaction", "square",
   "transfer", "pending", "unidentified"]

/-- _detect_unknown_merchants body for one row: flag (score contribution 1.0)
when the lower-cased merchant text contains a suspicious keyword.  There is
no minimum batch size for this pass. -/
def merchUpd (r : ARow) : ARow :=
  if suspicious_keywords.any (fun kw => strHasSub (lowerStr r.merchant) kw.toList) then
    if ¬ r.is_anomaly then
      { r with is_anomaly := true,
               anomaly_reason := addReason r.anomaly_reason .unknownMerchant,
               anomaly_score := max r.anomaly_score 1 }
    else r
  else r

/-- _detect_unknown_merchants: skipped only when the merchant column is
absent. -/
def detect_unknown_merchants (hasMerchant : Bool) (rows : List ARow) : List ARow :=
  if hasMerchant then rows.map merchUpd else rows

/-- _detect_unusual_patterns body for one row: flag amounts exceeding 5x the
median of the valid amounts; score amount/median; unflagged rows only. -/
def largeUpd (median_amount : ℚ) (r : ARow) : ARow :=
  match r.amount with
  | some x =>
    if median_amount * 5 < x then
      if ¬ r.is_anomaly then
        { r with is_anomaly := true,
                 anomaly_reason := addReason r.anomaly_reason .largeTransaction,
                 anomaly_score := max r.anomaly_score (x / median_amount) }
      else r
    else r
  | none => r

/-- _detect_unusual_patterns: skipped when the date column is absent or the
frame has fewer than 3 rows (valid or not); otherwise runs whenever at least
one valid amount exists. -/
def detect_unusual_patterns (hasDate : Bool) (rows : List ARow) : List ARow :=
  if ¬ hasDate ∨ rows.length < 3 then rows
  else
    let amounts := rows.filterMap (fun r => r.amount)
    if amounts.length = 0 then rows
    else rows.map (largeUpd (medianQ amounts))

/-- Column initialisation of detect_anomalies: is_anomaly = False,
anomaly_reason = "", anomaly_score = 0.0. -/
def initRow (r : ARow) : ARow :=
  { r with is_anomaly := false, anomaly_reason := [], anomaly_score := 0 }

/-- detect_anomalies: initialise is_anomaly/anomaly_reason/anomaly_score,
then run the four passes in order (statistical, category, merchant,
pattern). -/
def detect_anomalies (O : ScoreOracle) (df : ADFrame) : ADFrame :=
  let rows0 := df.rows.map initRow
  let rows1 := detect_statistical_outliers O rows0
  let rows2 := detect_category_outliers O df.hasCategory rows1
  let rows3 := detect_unknown_merchants df.hasMerchant rows2
  let rows4 := detect_unusual_patterns df.hasDate rows3
  { df with rows := rows4 }

/-- Oracle used for concrete runs; the reasons and flags computed by the
passes are independent of the oracle, and on the concrete batches below the
z-score and category passes never fire, so scores are too. -/
def O0 : ScoreOracle := ⟨fun _ => 0, fun _ _ => 0⟩

/-- The anomaly example batch: amounts [10,12,11,13,500], no category
column. -/
def c1Rows : List ARow :=
  [⟨some 10, "alpha", none, false, [], 0⟩,
   ⟨some 12, "beta", none, false, [], 0⟩,
   ⟨some 11, "gamma", none, false, [], 0⟩,
   ⟨some 13, "delta", none, false, [], 0⟩,
   ⟨some 500, "epsilon", none, false, [], 0⟩]

/-- The anomaly example dataframe (category column absent). -/
def c1Batch : ADFrame := { rows := c1Rows, hasCategory := false }

/-- Expected state after the statistical pass: only the $500 row is flagged,
by the IQR sub-pass (Q1=11, Q3=13, IQR=2, bounds [8,16]), with score
(500-16)/2 = 242; the z-score condition (x-mean)^2 > 2.5^2 * variance fails
for every row (for the $500 row: 390.8^2 = 152724.64 against
6.25 * 47727.7 = 298298.125). -/
def c1RowsStat : List ARow :=
  [⟨some 10, "alpha", none, false, [], 0⟩,
   ⟨some 12, "beta", none, false, [], 0⟩,
   ⟨some 11, "gamma", none, false, [], 0⟩,
   ⟨some 13, "delta", none, false, [], 0⟩,
   ⟨some 500, "epsilon", none, true, [.iqrOutlier], 242⟩]

theorem c1_amounts : c1Rows.filterMap (fun r => r.amount) = [10, 12, 11, 13, 500] := rfl

theorem c1_mean : meanQ [10, 12, 11, 13, 500] = 546/5 := by
  norm_num [meanQ, qsum, List.foldr]

theorem c1_var : sampleVar [10, 12, 11, 13, 500] = 477277/10 := by
  rw [sampleVar, c1_mean]
  norm_num [qsum, List.foldr]

theorem c1_sort : sortQ [10, 12, 11, 13, 500] = [10, 11, 12, 13, 500] := by
  norm_num [sortQ, List.insertionSort, List.orderedInsert]

theorem c1_q1 : quantileQ [10, 12, 11, 13, 500] (1/4) = 11 := by
  rw [quantileQ, c1_sort]
  norm_num

theorem c1_q3 : quantileQ [10, 12, 11, 13, 500] (3/4) = 13 := by
  rw [quantileQ, c1_sort]
  have h3 : Int.toNat 3 = 3 := rfl
  norm_num [h3, List.getD_cons_succ, List.getD_cons_zero]

theorem c1_stat (O : ScoreOracle) : detect_statistical_outliers O c1Rows = c1RowsStat := by
  rw [detect_statistical_outliers]
  rw [if_neg (by norm_num [c1Rows])]
  simp only [c1_amounts]
  rw [if_neg (by norm_num)]
  simp only [c1_mean, c1_var, c1_q1, c1_q3]
  rw [if_pos (by norm_num)]
  have hz : c1Rows.map (zUpd O (546/5) (477277/10)) = c1Rows := by
    simp only [c1Rows, List.map_cons, List.map_nil, zUpd]
    norm_num
  rw [hz]
  simp only [c1Rows, c1RowsStat, List.map_cons, List.map_nil]
  norm_num [iqrUpd, addReason, max_def]

theorem c1_merch : detect_unknown_merchants true c1RowsStat = c1RowsStat := by
  have m1 : suspicious_keywords.any
      (fun kw => strHasSub (lowerStr "alpha") kw.toList) = false := by decide
  have m2 : suspicious_keywords.any
      (fun kw => strHasSub (lowerStr "beta") kw.toList) = false := by decide
  have m3 : suspicious_keywords.any
      (fun kw => strHasSub (lowerStr "gamma") kw.toList) = false := by decide
  have m4 : suspicious_keywords.any
      (fun kw => strHasSub (lowerStr "delta") kw.toList) = false := by decide
  have m5 : suspicious_keywords.any
      (fun kw => strHasSub (lowerStr "epsilon") kw.toList) = false := by decide
  simp only [detect_unknown_merchants, if_true, c1RowsStat, List.map_cons, List.map_nil,
    merchUpd, m1, m2, m3, m4, m5, Bool.false_eq_true, if_false]

theorem c1_statAmounts : c1RowsStat.filterMap (fun r => r.amount) = [10, 12, 11, 13, 500] := rfl

theorem c1_median : medianQ [10, 12, 11, 13, 500] = 12 := by
  rw [medianQ, c1_sort]
  norm_num [List.getD_cons_succ, List.getD_cons_zero]

theorem c1_patterns : detect_unusual_patterns true c1RowsStat = c1RowsStat := by
  rw [detect_unusual_patterns]
  rw [if_neg (by norm_num [c1RowsStat])]
  simp only [c1_statAmounts]
  rw [if_neg (by norm_num), c1_median]
  simp only [c1RowsStat, List.map_cons, List.map_nil]
  norm_num [largeUpd]

theorem c1_run (O : ScoreOracle) : (detect_anomalies O c1Batch).rows = c1RowsStat := by
  have hinit : c1Batch.rows.map initRow = c1Rows := rfl
  have hcat : detect_category_outliers O c1Batch.hasCategory
      (detect_statistical_outliers O c1Rows) = c1RowsStat := by
    rw [c1_stat]
    simp [detect_category_outliers, c1Batch]
  simp only [detect_anomalies, hinit, hcat]
  show detect_unusual_patterns true (detect_unknown_merchants true c1RowsStat) = c1RowsStat
  rw [c1_merch, c1_patterns]

/-- Counterexample to claim C1: on the batch [10,12,11,13,500] with no
category column, the $500 transaction is flagged by the IQR sub-pass alone —
its reason list is exactly [iqrOutlier] and its score is the IQR score
(500-16)/2 = 242.  The Z-score pass does not flag it: the squared z-score
condition fails (second conjunct, (500 - 546/5)^2 ≤ 2.5^2 * variance, i.e.
z = 390.8/218.46... = 1.79 ≤ 2.5), and the large-transaction pass skips the
already-flagged row, so no largeTransaction reason is recorded and the final
score is not the amount-divided-by-median score 500/12 nor any maximum
involving it. -/
theorem anomaly_example_cex :
    (detect_anomalies O0 c1Batch).rows.map
        (fun r => (r.is_anomaly, r.anomaly_reason, r.anomaly_score)) =
      [(false, [], 0), (false, [], 0), (false, [], 0), (false, [], 0),
       (true, [AnomalyReason.iqrOutlier], 242)] ∧
    ((500 : ℚ) - 546/5) ^ 2 ≤ (5/2) ^ 2 * sampleVar [10, 12, 11, 13, 500] ∧
    (242 : ℚ) ≠ 500 / 12 := by
  refine ⟨?_, ?_, by norm_num⟩
  · rw [c1_run]
    rfl
  · rw [c1_var]
    norm_num

/-- Claim C1 (amended): every detection pass updates only rows that are not
yet flagged — once any pass flags a row, later passes leave its reason list
and score unchanged — so a row's reason and score come from the single pass
that first flagged it.  On the batch [10,12,11,13,500] with no category
column the $500 transaction is flagged by the IQR sub-pass only (its z-score
is below the 2.5 threshold), with final reason [iqrOutlier] and final
anomaly_score equal to the IQR score (500-16)/2 = 242, for every score
oracle. -/
theorem anomaly_single_pass_scoring :
    (∀ (O : ScoreOracle) (mean_amount variance lb ub iqr med : ℚ)
        (rows : List ARow) (r : ARow), r.is_anomaly = true →
      zUpd O mean_amount variance r = r ∧ iqrUpd lb ub iqr r = r ∧
        catUpd O rows r = r ∧ merchUpd r = r ∧ largeUpd med r = r) ∧
    (∀ O : ScoreOracle, (detect_anomalies O c1Batch).rows.map
        (fun r => (r.is_anomaly, r.anomaly_reason, r.anomaly_score)) =
      [(false, [], 0), (false, [], 0), (false, [], 0), (false, [], 0),
       (true, [AnomalyReason.iqrOutlier], 242)]) := by
  constructor
  · intro O mean_amount variance lb ub iqr med rows r h
    refine ⟨?_, ?_, ?_, ?_, ?_⟩
    · cases hr : r.amount <;> simp [zUpd, hr, h]
    · cases hr : r.amount <;> simp [iqrUpd, hr, h]
    · cases hc : r.category <;> cases hr : r.amount <;> simp [catUpd, hc, hr, h]
    · simp [merchUpd, h]
    · cases hr : r.amount <;> simp [largeUpd, hr, h]
  · intro O
    rw [c1_run]
    rfl

/-- Witness for C1 (amended): an already-flagged concrete row is left
untouched by every pass body, and the concrete run of the example batch. -/
theorem anomaly_single_pass_scoring_witness :
    (zUpd O0 0 1 ⟨some 500, "m", none, true, [.iqrOutlier], 242⟩ =
        ⟨some 500, "m", none, true, [.iqrOutlier], 242⟩ ∧
      iqrUpd 0 1 1 ⟨some 500, "m", none, true, [.iqrOutlier], 242⟩ =
        ⟨some 500, "m", none, true, [.iqrOutlier], 242⟩ ∧
      catUpd O0 [] ⟨some 500, "m", none, true, [.iqrOutlier], 242⟩ =
        ⟨some 500, "m", none, true, [.iqrOutlier], 242⟩ ∧
      merchUpd ⟨some 500, "m", none, true, [.iqrOutlier], 242⟩ =
        ⟨some 500, "m", none, true, [.iqrOutlier], 242⟩ ∧
      largeUpd 1 ⟨some 500, "m", none, true, [.iqrOutlier], 242⟩ =
        ⟨some 500, "m", none, true, [.iqrOutlier], 242⟩) ∧
    (detect_anomalies O0 c1Batch).rows.map
        (fun r => (r.is_anomaly, r.anomaly_reason, r.anomaly_score)) =
      [(false, [], 0), (false, [], 0), (false, [], 0), (false, [], 0),
       (true, [AnomalyReason.iqrOutlier], 242)] :=
  ⟨anomaly_single_pass_scoring.1 O0 0 1 0 1 1 1 []
      ⟨some 500, "m", none, true, [.iqrOutlier], 242⟩ rfl,
   anomaly_single_pass_scoring.2 O0⟩

/-- One row evolving across a pass: the flag is never cleared and the score
never decreases. -/
def RowStep (r s : ARow) : Prop :=
  (r.is_anomaly = true → s.is_anomaly = true) ∧ r.anomaly_score ≤ s.anomaly_score

/-- Rowwise monotone evolution of a whole frame across a pass. -/
def StepMono (rows rows' : List ARow) : Prop := List.Forall₂ RowStep rows rows'

theorem rowStep_refl (r : ARow) : RowStep r r := ⟨fun h => h, le_refl _⟩

theorem stepMono_refl (rows : List ARow) : StepMono rows rows := by
  induction rows with
  | nil => exact .nil
  | cons a t ih => exact .cons (rowStep_refl a) ih

theorem stepMono_map (u : ARow → ARow) (h : ∀ r, RowStep r (u r)) :
    ∀ rows : List ARow, StepMono rows (rows.map u) := by
  intro rows
  induction rows with
  | nil => exact .nil
  | cons a t ih => exact .cons (h a) ih

theorem stepMono_trans {a b c : List ARow} (h1 : StepMono a b) (h2 : StepMono b c) :
    StepMono a c := by
  induction h1 generalizing c with
  | nil => cases h2; exact .nil
  | cons hab _ ih =>
    cases h2 with
    | cons hbc h2tl => exact .cons ⟨fun h => hbc.1 (hab.1 h), le_trans hab.2 hbc.2⟩ (ih h2tl)

theorem zUpd_step (O : ScoreOracle) (mean_amount variance : ℚ) (r : ARow) :
    RowStep r (zUpd O mean_amount variance r) := by
  rw [zUpd]
  cases hr : r.amount with
  | none => exact rowStep_refl r
  | some x =>
    dsimp only
    split
    · split
      · exact ⟨fun _ => rfl, le_max_left _ _⟩
      · exact rowStep_refl r
    · exact rowStep_refl r

theorem iqrUpd_step (lb ub iqr : ℚ) (r : ARow) : RowStep r (iqrUpd lb ub iqr r) := by
  rw [iqrUpd]
  cases hr : r.amount with
  | none => exact rowStep_refl r
  | some x =>
    dsimp only
    split
    · split
      · exact ⟨fun _ => rfl, le_max_left _ _⟩
      · exact rowStep_refl r
    · exact rowStep_refl r

theorem catUpd_step (O : ScoreOracle) (rows : List ARow) (r : ARow) :
    RowStep r (catUpd O rows r) := by
  rw [catUpd]
  cases hc : r.category with
  | none => exact rowStep_refl r
  | some c =>
    dsimp only
    cases hr : r.amount with
    | none => exact rowStep_refl r
    | some x =>
      dsimp only
      split
      · exact rowStep_refl r
      · split
        · exact rowStep_refl r
        · split
          · split
            · split
              · exact ⟨fun _ => rfl, le_max_left _ _⟩
              · exact rowStep_refl r
            · exact rowStep_refl r
          · exact rowStep_refl r

theorem merchUpd_step (r : ARow) : RowStep r (merchUpd r) := by
  rw [merchUpd]
  split
  · split
    · exact ⟨fun _ => rfl, le_max_left _ _⟩
    · exact rowStep_refl r
  · exact rowStep_refl r

theorem largeUpd_step (med : ℚ) (r : ARow) : RowStep r (largeUpd med r) := by
  rw [largeUpd]
  cases hr : r.amount with
  | none => exact rowStep_refl r
  | some x =>
    dsimp only
    split
    · split
      · exact ⟨fun _ => rfl, le_max_left _ _⟩
      · exact rowStep_refl r
    · exact rowStep_refl r

theorem stat_stepMono (O : ScoreOracle) (rows : List ARow) :
    StepMono rows (detect_statistical_outliers O rows) := by
  rw [detect_statistical_outliers]
  split
  · exact stepMono_refl rows
  · dsimp only
    split
    · exact stepMono_refl rows
    · have h1 : StepMono rows
          (if 0 < sampleVar (rows.filterMap (fun r => r.amount)) then
            rows.map (zUpd O (meanQ (rows.filterMap (fun r => r.amount)))
              (sampleVar (rows.filterMap (fun r => r.amount))))
          else rows) := by
        split
        · exact stepMono_map _ (zUpd_step O _ _) rows
        · exact stepMono_refl rows
      split
      · exact stepMono_trans h1 (stepMono_map _ (iqrUpd_step _ _ _) _)
      · exact h1

theorem cat_stepMono (O : ScoreOracle) (hc : Bool) (rows : List ARow) :
    StepMono rows (detect_category_outliers O hc rows) := by
  rw [detect_category_outliers]
  split
  · exact stepMono_map _ (catUpd_step O rows) rows
  · exact stepMono_refl rows

theorem merch_stepMono (hm : Bool) (rows : List ARow) :
    StepMono rows (detect_unknown_merchants hm rows) := by
  rw [detect_unknown_merchants]
  split
  · exact stepMono_map _ merchUpd_step rows
  · exact stepMono_refl rows

theorem patterns_stepMono (hd : Bool) (rows : List ARow) :
    StepMono rows (detect_unusual_patterns hd rows) := by
  rw [detect_unusual_patterns]
  split
  · exact stepMono_refl rows
  · dsimp only
    split
    · exact stepMono_refl rows
    · exact stepMono_map _ (largeUpd_step _) rows

/-- Claim C4: within one run, every pass (and both statistical sub-passes)
only ever sets is_anomaly to true — a flag set by an earlier pass is never
cleared — and only ever raises anomaly_score, via a max with the running
value; the full run is exactly the four passes applied in order to the
initialised rows. -/
theorem anomaly_or_merge (O : ScoreOracle) (df : ADFrame) (hc hm hd : Bool)
    (rows : List ARow) :
    (∀ (mean_amount variance lb ub iqr med : ℚ) (r : ARow),
      RowStep r (zUpd O mean_amount variance r) ∧ RowStep r (iqrUpd lb ub iqr r) ∧
        RowStep r (catUpd O rows r) ∧ RowStep r (merchUpd r) ∧
        RowStep r (largeUpd med r)) ∧
    StepMono rows (detect_statistical_outliers O rows) ∧
    StepMono rows (detect_category_outliers O hc rows) ∧
    StepMono rows (detect_unknown_merchants hm rows) ∧
    StepMono rows (detect_unusual_patterns hd rows) ∧
    (detect_anomalies O df).rows =
      detect_unusual_patterns df.hasDate (detect_unknown_merchants df.hasMerchant
        (detect_category_outliers O df.hasCategory (detect_statistical_outliers O
          (df.rows.map initRow)))) :=
  ⟨fun mean_amount variance lb ub iqr med r =>
    ⟨zUpd_step O mean_amount variance r, iqrUpd_step lb ub iqr r,
      catUpd_step O rows r, merchUpd_step r, largeUpd_step med r⟩,
   stat_stepMono O rows, cat_stepMono O hc rows, merch_stepMono hm rows,
   patterns_stepMono hd rows, rfl⟩

/-- Witness for C4: the monotone-evolution facts instantiated on the concrete
example batch and its statistical pass. -/
theorem anomaly_or_merge_witness :
    StepMono c1Rows (detect_statistical_outliers O0 c1Rows) ∧
    (detect_anomalies O0 c1Batch).rows =
      detect_unusual_patterns c1Batch.hasDate (detect_unknown_merchants c1Batch.hasMerchant
        (detect_category_outliers O0 c1Batch.hasCategory (detect_statistical_outliers O0
          (c1Batch.rows.map initRow)))) :=
  ⟨(anomaly_or_merge O0 c1Batch true true true c1Rows).2.1,
   (anomaly_or_merge O0 c1Batch true true true c1Rows).2.2.2.2.2⟩

/-- Mapping a function that fixes every member of a list is the identity. -/
theorem map_id_of_eq {f : ARow → ARow} : ∀ {l : List ARow}, (∀ r ∈ l, f r = r) → l.map f = l := by
  intro l
  induction l with
  | nil => intro _; rfl
  | cons a t ih =>
    intro h
    rw [List.map_cons, h a (by simp), ih (fun r hr => h r (by simp [hr]))]

theorem meanQ_pair (a b : ℚ) : meanQ [a, b] = (a + b) / 2 := by
  simp [meanQ, qsum]

theorem sampleVar_pair (a b : ℚ) : sampleVar [a, b] = (a - b) ^ 2 / 2 := by
  simp only [sampleVar, meanQ_pair, qsum, List.map_cons, List.map_nil, List.foldr,
    List.length_cons, List.length_nil]
  norm_num
  ring

/-- In a two-element sample, no member exceeds mean + 2*std: the squared
deviation of a member from the mean is (a-b)^2/4, which never exceeds
4 * sampleVar = 2*(a-b)^2. -/
theorem two_point_no_outlier (a b x : ℚ) (hx : x = a ∨ x = b) :
    ¬ ((x - meanQ [a, b]) ^ (2 : ℕ) > (2 : ℚ) ^ (2 : ℕ) * sampleVar [a, b]) := by
  rw [meanQ_pair, sampleVar_pair]
  rcases hx with rfl | rfl
  · intro h
    nlinarith [sq_nonneg (x - b)]
  · intro h
    nlinarith [sq_nonneg (a - x)]

/-- In a frame of fewer than 3 rows, the category pass changes nothing: a
category group has at most 2 members, and a 2-member group can never satisfy
amount > mean + 2*std. -/
theorem catUpd_small (O : ScoreOracle) (rows : List ARow) (hlen : rows.length < 3)
    (r : ARow) (hr : r ∈ rows) : catUpd O rows r = r := by
  rw [catUpd]
  cases hcat : r.category with
  | none => rfl
  | some c =>
    dsimp only
    cases ha : r.amount with
    | none => rfl
    | some x =>
      dsimp only
      split
      · rfl
      · rename_i hglen
        have hle : (rows.filter (fun s => decide (s.category = some c))).length ≤ rows.length :=
          List.length_filter_le _ _
        have hg2 : (rows.filter (fun s => decide (s.category = some c))).length = 2 := by omega
        obtain ⟨u, v, huv⟩ := List.length_eq_two.mp hg2
        have hrg : r ∈ rows.filter (fun s => decide (s.category = some c)) :=
          List.mem_filter.mpr ⟨hr, by simp [hcat]⟩
        rw [huv]
        split
        · rfl
        · rename_i halen
          have hale : ([u, v].filterMap (fun s => s.amount)).length ≤ 2 := by
            have := List.length_filterMap_le (fun s : ARow => s.amount) [u, v]
            simpa using this
          have ha2 : ([u, v].filterMap (fun s => s.amount)).length = 2 := by
            omega
          cases hu : u.amount with
          | none =>
            exfalso
            have h1 : [u, v].filterMap (fun s => s.amount) =
                [v].filterMap (fun s => s.amount) := by
              simp [List.filterMap_cons, hu]
            have h2 := List.length_filterMap_le (fun s : ARow => s.amount) [v]
            rw [h1] at ha2
            simp only [List.length_cons, List.length_nil] at h2
            omega
          | some ua =>
            cases hv : v.amount with
            | none =>
              exfalso
              have h1 : [u, v].filterMap (fun s => s.amount) =
                  [u].filterMap (fun s => s.amount) ++ [] := by
                simp [List.filterMap_cons, hu, hv]
              have h2 := List.length_filterMap_le (fun s : ARow => s.amount) [u]
              rw [h1] at ha2
              simp only [List.append_nil] at ha2
              simp only [List.length_cons, List.length_nil] at h2
              omega
            | some va =>
              have hamts : [u, v].filterMap (fun s => s.amount) = [ua, va] := by
                simp [List.filterMap_cons, hu, hv]
              rw [hamts]
              have hxmem : x = ua ∨ x = va := by
                rw [huv] at hrg
                rcases List.mem_pair.mp hrg with rfl | rfl
                · left; rw [hu] at ha; exact (Option.some_inj.mp ha).symm
                · right; rw [hv] at ha; exact (Option.some_inj.mp ha).symm
              have hno := two_point_no_outlier ua va x hxmem
              split
              · rename_i hvarpos
                have hcond : (decide (meanQ [ua, va] < x) &&
                    decide ((x - meanQ [ua, va]) ^ (2 : ℕ) >
                      (2 : ℚ) ^ (2 : ℕ) * sampleVar [ua, va])) = false := by
                  simp [hno]
                rw [hcond]
                rfl
              · rfl

/-- A batch with a single transaction, with numeric amount and merchant text
"unknown". -/
def c8Batch : ADFrame := { rows := [⟨some 5, "unknown", none, false, [], 0⟩] }

theorem c8_merch_cond :
    suspicious_keywords.any (fun kw => strHasSub (lowerStr "unknown") kw.toList) = true := by
  decide

/-- Counterexample to claim C8: a batch with a single valid transaction
(fewer than 3 numeric amounts) whose merchant text is "unknown" does not pass
through unflagged — the merchant-keyword pass has no minimum batch size and
flags the row with reason unknownMerchant and score 1. -/
theorem anomaly_small_batch_cex :
    (c8Batch.rows.filterMap (fun r => r.amount)).length < 3 ∧
    (detect_anomalies O0 c8Batch).rows.map
        (fun r => (r.is_anomaly, r.anomaly_reason, r.anomaly_score)) =
      [(true, [AnomalyReason.unknownMerchant], 1)] := by
  refine ⟨by decide, ?_⟩
  have hinit : c8Batch.rows.map initRow = c8Batch.rows := rfl
  have hstat : detect_statistical_outliers O0 c8Batch.rows = c8Batch.rows := by
    rw [detect_statistical_outliers, if_pos (by norm_num [c8Batch])]
  have hcat : detect_category_outliers O0 true c8Batch.rows = c8Batch.rows := by
    simp only [detect_category_outliers, if_true, c8Batch, List.map_cons, List.map_nil]
    rw [catUpd]
  have hmerch : detect_unknown_merchants true c8Batch.rows =
      [⟨some 5, "unknown", none, true, [.unknownMerchant], 1⟩] := by
    simp only [detect_unknown_merchants, if_true, c8Batch, List.map_cons, List.map_nil,
      merchUpd, c8_merch_cond, if_true, addReason]
    norm_num [max_def]
  have hpat : detect_unusual_patterns true
      [(⟨some 5, "unknown", none, true, [.unknownMerchant], 1⟩ : ARow)] =
      [⟨some 5, "unknown", none, true, [.unknownMerchant], 1⟩] := by
    rw [detect_unusual_patterns, if_pos (by norm_num)]
  show (detect_unusual_patterns c8Batch.hasDate (detect_unknown_merchants c8Batch.hasMerchant
      (detect_category_outliers O0 c8Batch.hasCategory (detect_statistical_outliers O0
        (c8Batch.rows.map initRow))))).map
      (fun r => (r.is_anomaly, r.anomaly_reason, r.anomaly_score)) = _
  rw [hinit, hstat]
  show (detect_unusual_patterns true (detect_unknown_merchants true
      (detect_category_outliers O0 true c8Batch.rows))).map
      (fun r => (r.is_anomaly, r.anomaly_reason, r.anomaly_score)) = _
  rw [hcat, hmerch, hpat]
  rfl

/-- Claim C8 (amended): a batch with fewer than 3 rows (hence fewer than 3
numeric amounts) none of whose merchant texts contains a suspicious keyword
passes through with every row unflagged, empty reasons and score 0; the
restriction on merchants is necessary because the merchant-keyword pass has
no minimum batch size (see the counterexample), and batches of 3 or more rows
with fewer than 3 numeric amounts can additionally be flagged by the
large-transaction pass. -/
theorem anomaly_small_batch (O : ScoreOracle) (df : ADFrame)
    (hlen : df.rows.length < 3)
    (hm : ∀ r ∈ df.rows,
      suspicious_keywords.any (fun kw => strHasSub (lowerStr r.merchant) kw.toList) = false) :
    (detect_anomalies O df).rows = df.rows.map initRow := by
  have hlen0 : (df.rows.map initRow).length < 3 := by
    simpa using hlen
  have hstat : detect_statistical_outliers O (df.rows.map initRow) =
      df.rows.map initRow := by
    rw [detect_statistical_outliers, if_pos hlen0]
  have hcat : detect_category_outliers O df.hasCategory (df.rows.map initRow) =
      df.rows.map initRow := by
    rw [detect_category_outliers]
    split
    · exact map_id_of_eq (fun r hr => catUpd_small O _ hlen0 r hr)
    · rfl
  have hmerch : detect_unknown_merchants df.hasMerchant (df.rows.map initRow) =
      df.rows.map initRow := by
    rw [detect_unknown_merchants]
    split
    · apply map_id_of_eq
      intro r hr
      obtain ⟨s, hs, rfl⟩ := List.mem_map.mp hr
      have hms := hm s hs
      simp only [merchUpd]
      rw [show (initRow s).merchant = s.merchant from rfl, hms]
      rfl
    · rfl
  have hpat : detect_unusual_patterns df.hasDate (df.rows.map initRow) =
      df.rows.map initRow := by
    rw [detect_unusual_patterns, if_pos (Or.inr hlen0)]
  show detect_unusual_patterns df.hasDate (detect_unknown_merchants df.hasMerchant
      (detect_category_outliers O df.hasCategory (detect_statistical_outliers O
        (df.rows.map initRow)))) = _
  rw [hstat, hcat, hmerch, hpat]

/-- Witness for C8 (amended): a concrete 2-row batch with ordinary merchants
comes out fully unflagged. -/
theorem anomaly_small_batch_witness :
    (detect_anomalies O0
        { rows := [⟨some 10, "alpha", none, false, [], 0⟩,
                   ⟨some 999, "beta", none, true, [.zscore], 7⟩] }).rows =
      [⟨some 10, "alpha", none, false, [], 0⟩, ⟨some 999, "beta", none, false, [], 0⟩] := by
  have h := anomaly_small_batch O0
    { rows := [⟨some 10, "alpha", none, false, [], 0⟩,
               ⟨some 999, "beta", none, true, [.zscore], 7⟩] }
    (by norm_num) (by decide)
  simpa using h

/-!
## Recurring-charge detector (src/agents/bill_agent.py)

BillAgent is instantiated with the default BillDetectionConfig
(min_occurrences=3, monthly_min_days=25, monthly_max_days=35,
amount_tolerance=0.15).  The merchant-normalisation regexes of _prepare are
written with doubled backslashes inside raw strings: r"[^a-z0-9\\s]" is the
negated character class {a-z, 0-9, backslash, s}, so it deletes whitespace
and punctuation alike, and r"\\s+" matches a literal backslash followed by
one or more letters s (not whitespace runs).  The embedding reproduces this
faithfully.
-/

/-- Characters kept by re.sub(r"[^a-z0-9\\s]", "", text): lowercase letters,
digits and the backslash (the escaped class member); the class's literal "s"
is already covered by a-z.  Whitespace is NOT kept. -/
def keepChar (c : Char) : Bool :=
  ('a' ≤ c && c ≤ 'z') || ('0' ≤ c && c ≤ '9') || c = '\\'

/-- re.sub(r"\\s+", " ", text): replace each maximal run of a literal
backslash followed by one or more letters s with a single space, scanning
left to right.  `inRun` records that the greedy run of s is still being
consumed. -/
def collapseGo : Bool → List Char → List Char
  | _, [] => []
  | inRun, [c] =>
    if inRun && c = 's' then []
    else [c]
  | inRun, c :: c2 :: rest =>
    if inRun && c = 's' then collapseGo true (c2 :: rest)
    else if c = '\\' && c2 = 's' then ' ' :: collapseGo true rest
    else c :: collapseGo false (c2 :: rest)

/-- Python str.strip(): drop whitespace from both ends. -/
def stripChars (l : List Char) : List Char :=
  ((l.dropWhile (fun c => c.isWhitespace)).reverse.dropWhile
    (fun c => c.isWhitespace)).reverse

/-- BillAgent._prepare merchant normalisation:
merchant.str.lower().str.replace(r"[^a-z0-9\\s]", "", regex=True)
.str.replace(r"\\s+", " ", regex=True).str.strip(). -/
def normalize_merchant (s : String) : String :=
  String.mk (stripChars (collapseGo false ((lowerStr s).filter keepChar)))

/-- Calendar date (proleptic Gregorian). -/
structure BDate where
  year : Nat
  month : Nat
  day : Nat
deriving Repr, DecidableEq

/-- Day count of a calendar date (civil-from-date algorithm, valid for
year ≥ 1): models pandas datetime subtraction in days and +N-day shifts. -/
def BDate.dayNumber (dt : BDate) : Nat :=
  let y := if dt.month ≤ 2 then dt.year - 1 else dt.year
  let era := y / 400
  let yoe := y % 400
  let mp := (dt.month + 9) % 12
  let doy := (153 * mp + 2) / 5 + dt.day - 1
  let doe := yoe * 365 + yoe / 4 - yoe / 100 + doy
  era * 146097 + doe

/-- Input row of mark_recurring: amount after pd.to_numeric(errors="coerce"),
date after pd.to_datetime(errors="coerce"); `none` is NaN/NaT. -/
structure BTxn where
  merchant : String
  amount : Option ℚ
  date : Option BDate
deriving Repr

/-- A prepared (valid) transaction row, after _prepare's dropna. -/
structure PTxn where
  merchant : String
  amount : ℚ
  date : BDate
deriving Repr

/-- _prepare: keep the rows with a numeric amount and a parseable date. -/
def prepare (ts : List BTxn) : List PTxn :=
  ts.filterMap (fun t =>
    match t.amount with
    | none => none
    | some a =>
      match t.date with
      | none => none
      | some d => some ⟨t.merchant, a, d⟩)

/-- The prepared rows of one normalised-merchant group. -/
def merchant_group (ts : List BTxn) (key : String) : List PTxn :=
  (prepare ts).filter (fun p => decide (normalize_merchant p.merchant = key))

/-- BillDetectionConfig with its source defaults. -/
structure BillDetectionConfig where
  min_occurrences : Nat := 3
  monthly_min_days : Int := 25
  monthly_max_days : Int := 35
  amount_tolerance : ℚ := 15/100
deriving Repr

/-- The default configuration, as instantiated by BillAgent() in main.py. -/
def cfg0 : BillDetectionConfig := {}

/-- The group's transaction dates, as day numbers sorted ascending. -/
def sortedDays (g : List PTxn) : List Nat :=
  (g.map (fun p => p.date.dayNumber)).insertionSort (· ≤ ·)

/-- Consecutive-day gaps of a sorted day-number list. -/
def dayGaps : List Nat → List Int
  | [] => []
  | [_] => []
  | a :: b :: rest => ((b : Int) - (a : Int)) :: dayGaps (b :: rest)

/-- mark_recurring's per-merchant acceptance test: at least min_occurrences
valid rows; nonzero median amount; at least 60% of amounts within
amount_tolerance of the median; the value int(np.median(gaps)) — the
truncation of the median gap, equal to its floor since gaps are nonnegative —
within [monthly_min_days, monthly_max_days]. -/
def isRecurringGroup (cfg : BillDetectionConfig) (g : List PTxn) : Bool :=
  if g.length < cfg.min_occurrences then false
  else
    let amounts := g.map (fun p => p.amount)
    let med := medianQ amounts
    if med = 0 then false
    else
      let within := amounts.filter (fun a => decide (|a - med| / |med| ≤ cfg.amount_tolerance))
      if decide (((within.length : ℚ) / (amounts.length : ℚ)) < 3/5) then false
      else
        let gaps := dayGaps (sortedDays g)
        if gaps.isEmpty then false
        else
          let gap_med : Int := ⌊medianQ (gaps.map (fun z => (z : ℚ)))⌋
          decide (cfg.monthly_min_days ≤ gap_med ∧ gap_med ≤ cfg.monthly_max_days)

/-- mark_recurring: every valid row of an accepted normalised-merchant group
is tagged is_recurring=True (the source writes only the prepared rows'
indices); invalid rows keep the initialised False.  (When no valid row
exists at all, the source returns the input frame without the column; this
is rendered as all-False.) -/
def markRow (cfg : BillDetectionConfig) (ts : List BTxn) (t : BTxn) : BTxn × Bool :=
  match t.amount with
  | none => (t, false)
  | some _ =>
    match t.date with
    | none => (t, false)
    | some _ =>
      (t, isRecurringGroup cfg (merchant_group ts (normalize_merchant t.merchant)))

def mark_recurring (cfg : BillDetectionConfig) (ts : List BTxn) : List (BTxn × Bool) :=
  ts.map (markRow cfg ts)

/-- Counterexample to claim C9: the normalization does not send "Netflix,
Inc." and "netflix" to the same key — whitespace is deleted rather than
collapsed and the legal-entity suffix "inc" is not removed, so "Netflix,
Inc." normalizes to "netflixinc" while "netflix" stays "netflix". -/
theorem merchant_normalization_cex :
    normalize_merchant "Netflix, Inc." = "netflixinc" ∧
    normalize_merchant "netflix" = "netflix" ∧
    normalize_merchant "Netflix, Inc." ≠ normalize_merchant "netflix" := by
  refine ⟨by decide, by decide, by decide⟩

theorem collapseGo_no_backslash :
    ∀ l : List Char, '\\' ∉ l → collapseGo false l = l := by
  intro l
  induction l with
  | nil => intro _; rfl
  | cons c rest ih =>
    intro h
    rw [List.mem_cons] at h
    push_neg at h
    obtain ⟨hc, hrest⟩ := h
    have hc' : c ≠ '\\' := fun he => hc he.symm
    cases rest with
    | nil => simp [collapseGo]
    | cons c2 rest2 => simp [collapseGo, hc', ih hrest]

theorem dropWhile_id_of (p : Char → Bool) (l : List Char)
    (h : ∀ c ∈ l, p c = false) : l.dropWhile p = l := by
  cases l with
  | nil => rfl
  | cons a t =>
    rw [List.dropWhile_cons_of_neg]
    simp [h a (by simp)]

theorem stripChars_no_ws (l : List Char) (h : ∀ c ∈ l, c.isWhitespace = false) :
    stripChars l = l := by
  rw [stripChars, dropWhile_id_of _ _ h, dropWhile_id_of, List.reverse_reverse]
  intro c hcm
  exact h c (by simpa using hcm)

theorem keepChar_not_ws (c : Char) (hk : keepChar c = true) : c.isWhitespace = false := by
  by_contra hw
  have hw' : c.isWhitespace = true := by simpa using hw
  have hcases : c = ' ' ∨ c = '\t' ∨ c = '\r' ∨ c = '\n' := by
    simpa [Char.isWhitespace, or_assoc] using hw'
  rcases hcases with rfl | rfl | rfl | rfl <;> simp [keepChar] at hk

/-- Claim C9 (amended): the normalization lower-cases the text and deletes
every character that is not a lowercase letter, a digit or a backslash —
whitespace and punctuation are deleted, not collapsed — then replaces each
run of a backslash followed by letters "s" with one space and strips the
ends; legal-entity suffixes are not removed.  So on backslash-free text it is
exactly lower-then-filter, "Netflix, Inc." and "Netflix Inc" both normalize
to "netflixinc", and "netflix" (a distinct key) to "netflix". -/
theorem merchant_normalization_amended :
    (∀ s : String, ('\\' : Char) ∉ lowerStr s →
      normalize_merchant s = String.mk ((lowerStr s).filter keepChar)) ∧
    normalize_merchant "Netflix, Inc." = "netflixinc" ∧
    normalize_merchant "Netflix Inc" = "netflixinc" ∧
    normalize_merchant "netflix" = "netflix" := by
  refine ⟨?_, by decide, by decide, by decide⟩
  intro s h
  rw [normalize_merchant, collapseGo_no_backslash _ ?_, stripChars_no_ws _ ?_]
  · intro c hcm
    exact keepChar_not_ws c (List.mem_filter.mp hcm).2
  · intro hmem
    exact h (List.mem_filter.mp hmem).1

/-- Witness for C9 (amended): the general backslash-free description applied
to the concrete merchant "Netflix, Inc.". -/
theorem merchant_normalization_amended_witness :
    normalize_merchant "Netflix, Inc." =
      String.mk ((lowerStr "Netflix, Inc.").filter keepChar) :=
  merchant_normalization_amended.1 "Netflix, Inc." (by decide)

/-- The counterexample batch for the cadence test: three equal $10 "acme"
charges on 2025-01-01, 2025-02-05, 2025-03-13, with day gaps 35 and 36. -/
def c6CexBatch : List BTxn :=
  [⟨"acme", some 10, some ⟨2025, 1, 1⟩⟩,
   ⟨"acme", some 10, some ⟨2025, 2, 5⟩⟩,
   ⟨"acme", some 10, some ⟨2025, 3, 13⟩⟩]

def c6CexGroup : List PTxn :=
  [⟨"acme", 10, ⟨2025, 1, 1⟩⟩, ⟨"acme", 10, ⟨2025, 2, 5⟩⟩, ⟨"acme", 10, ⟨2025, 3, 13⟩⟩]

theorem c6cex_group : merchant_group c6CexBatch (normalize_merchant "acme") = c6CexGroup := rfl

theorem c6cex_gaps : dayGaps (sortedDays c6CexGroup) = [35, 36] := by decide

theorem medianQ_three_eq (a : ℚ) : medianQ [a, a, a] = a := by
  have hs : sortQ [a, a, a] = [a, a, a] := by
    simp [sortQ, List.insertionSort, List.orderedInsert]
  rw [medianQ, hs]
  norm_num [List.getD_cons_succ, List.getD_cons_zero]

theorem within_all_three (a tol : ℚ) (h : 0 ≤ tol) :
    [a, a, a].filter (fun x => decide (|x - a| / |a| ≤ tol)) = [a, a, a] := by
  have hc : |a - a| / |a| ≤ tol := by simp [h]
  simp [List.filter, hc, h]

theorem medianQ_pair_of_le (a b : ℚ) (hab : a ≤ b) : medianQ [a, b] = (a + b) / 2 := by
  have hs : sortQ [a, b] = [a, b] := by
    simp [sortQ, List.insertionSort, List.orderedInsert, hab]
  rw [medianQ, hs]
  norm_num [List.getD_cons_succ, List.getD_cons_zero]

theorem c6cex_gapsQ :
    (dayGaps (sortedDays c6CexGroup)).map (fun z => (z : ℚ)) = [35, 36] := by
  rw [c6cex_gaps]
  norm_num

theorem c6cex_rec : isRecurringGroup cfg0 c6CexGroup = true := by
  rw [isRecurringGroup]
  rw [if_neg (by norm_num [c6CexGroup, cfg0])]
  have hamounts : c6CexGroup.map (fun p => p.amount) = [10, 10, 10] := rfl
  simp only [hamounts, medianQ_three_eq]
  rw [if_neg (by norm_num)]
  rw [show (cfg0.amount_tolerance : ℚ) = 15/100 from rfl]
  rw [within_all_three 10 (15/100) (by norm_num)]
  rw [if_neg (by norm_num)]
  rw [c6cex_gaps]
  simp only [List.isEmpty_cons, Bool.false_eq_true, if_false]
  have hcast : ([(35 : ℤ), 36].map (fun z => (z : ℚ))) = [35, 36] := by norm_num
  rw [hcast, medianQ_pair_of_le 35 36 (by norm_num)]
  have hfloor : ⌊((35 : ℚ) + 36) / 2⌋ = 35 := by
    rw [Int.floor_eq_iff]
    norm_num
  rw [hfloor]
  rfl

/-- Counterexample to claim C6: for three equal $10 "acme" charges on
2025-01-01, 2025-02-05 and 2025-03-13, the consecutive-day gaps are 35 and 36
with median 35.5, which does NOT lie within [25, 35] — yet all three rows are
tagged is_recurring=true, because the source truncates the median with
int(np.median(gaps)) to 35 before the range check. -/
theorem bills_recurring_cex :
    (mark_recurring cfg0 c6CexBatch).map (fun p => p.2) = [true, true, true] ∧
    medianQ ((dayGaps (sortedDays (merchant_group c6CexBatch
      (normalize_merchant "acme")))).map (fun z => (z : ℚ))) = 71/2 ∧
    ¬ ((25 : ℚ) ≤ 71/2 ∧ (71 : ℚ)/2 ≤ 35) := by
  refine ⟨?_, ?_, by norm_num⟩
  · have h1 : markRow cfg0 c6CexBatch ⟨"acme", some 10, some ⟨2025, 1, 1⟩⟩ =
        (⟨"acme", some 10, some ⟨2025, 1, 1⟩⟩, true) := by
      rw [markRow]
      show (_, isRecurringGroup cfg0 (merchant_group c6CexBatch (normalize_merchant "acme"))) = _
      rw [c6cex_group, c6cex_rec]
    have h2 : markRow cfg0 c6CexBatch ⟨"acme", some 10, some ⟨2025, 2, 5⟩⟩ =
        (⟨"acme", some 10, some ⟨2025, 2, 5⟩⟩, true) := by
      rw [markRow]
      show (_, isRecurringGroup cfg0 (merchant_group c6CexBatch (normalize_merchant "acme"))) = _
      rw [c6cex_group, c6cex_rec]
    have h3 : markRow cfg0 c6CexBatch ⟨"acme", some 10, some ⟨2025, 3, 13⟩⟩ =
        (⟨"acme", some 10, some ⟨2025, 3, 13⟩⟩, true) := by
      rw [markRow]
      show (_, isRecurringGroup cfg0 (merchant_group c6CexBatch (normalize_merchant "acme"))) = _
      rw [c6cex_group, c6cex_rec]
    simp only [c6CexBatch] at h1 h2 h3
    simp only [mark_recurring, c6CexBatch, List.map_cons, List.map_nil, h1, h2, h3]
  · rw [c6cex_group]
    rw [c6cex_gapsQ, medianQ_pair_of_le 35 36 (by norm_num)]
    norm_num

/-- The recurring-detection example: three $9.99 Netflix charges on
2025-11-01, 2025-12-01, 2026-01-01 plus one $40 Grocery charge. -/
def netflixBatch : List BTxn :=
  [⟨"Netflix", some (999/100), some ⟨2025, 11, 1⟩⟩,
   ⟨"Netflix", some (999/100), some ⟨2025, 12, 1⟩⟩,
   ⟨"Netflix", some (999/100), some ⟨2026, 1, 1⟩⟩,
   ⟨"Grocery", some 40, some ⟨2026, 1, 15⟩⟩]

def netflixGroup : List PTxn :=
  [⟨"Netflix", 999/100, ⟨2025, 11, 1⟩⟩, ⟨"Netflix", 999/100, ⟨2025, 12, 1⟩⟩,
   ⟨"Netflix", 999/100, ⟨2026, 1, 1⟩⟩]

theorem netflix_group :
    merchant_group netflixBatch (normalize_merchant "Netflix") = netflixGroup := rfl

theorem grocery_group :
    merchant_group netflixBatch (normalize_merchant "Grocery") =
      [⟨"Grocery", 40, ⟨2026, 1, 15⟩⟩] := rfl

theorem netflix_gaps : dayGaps (sortedDays netflixGroup) = [30, 31] := by decide

theorem netflix_rec : isRecurringGroup cfg0 netflixGroup = true := by
  rw [isRecurringGroup]
  rw [if_neg (by norm_num [netflixGroup, cfg0])]
  have hamounts : netflixGroup.map (fun p => p.amount) = [999/100, 999/100, 999/100] := rfl
  simp only [hamounts, medianQ_three_eq]
  rw [if_neg (by norm_num)]
  rw [show (cfg0.amount_tolerance : ℚ) = 15/100 from rfl]
  rw [within_all_three (999/100) (15/100) (by norm_num)]
  rw [if_neg (by norm_num)]
  rw [netflix_gaps]
  simp only [List.isEmpty_cons, Bool.false_eq_true, if_false]
  have hcast : ([(30 : ℤ), 31].map (fun z => (z : ℚ))) = [30, 31] := by norm_num
  rw [hcast, medianQ_pair_of_le 30 31 (by norm_num)]
  have hfloor : ⌊((30 : ℚ) + 31) / 2⌋ = 30 := by
    rw [Int.floor_eq_iff]
    norm_num
  rw [hfloor]
  rfl

theorem grocery_rec :
    isRecurringGroup cfg0 [⟨"Grocery", 40, ⟨2026, 1, 15⟩⟩] = false := by
  rw [isRecurringGroup, if_pos (by norm_num [cfg0])]

/-- The acceptance condition of isRecurringGroup as a proposition: enough
occurrences, nonzero median amount, at least 60% of amounts within tolerance
of the median, at least one gap, and the floor (= int truncation) of the
median gap within the monthly window. -/
def RecurringSpec (cfg : BillDetectionConfig) (g : List PTxn) : Prop :=
  cfg.min_occurrences ≤ g.length ∧
  medianQ (g.map (fun p => p.amount)) ≠ 0 ∧
  (3/5 : ℚ) ≤
    (((g.map (fun p => p.amount)).filter (fun a =>
      decide (|a - medianQ (g.map (fun p => p.amount))| /
        |medianQ (g.map (fun p => p.amount))| ≤ cfg.amount_tolerance))).length : ℚ) /
      ((g.map (fun p => p.amount)).length : ℚ) ∧
  dayGaps (sortedDays g) ≠ [] ∧
  cfg.monthly_min_days ≤ ⌊medianQ ((dayGaps (sortedDays g)).map (fun z => (z : ℚ)))⌋ ∧
  ⌊medianQ ((dayGaps (sortedDays g)).map (fun z => (z : ℚ)))⌋ ≤ cfg.monthly_max_days

theorem isRecurringGroup_iff (cfg : BillDetectionConfig) (g : List PTxn) :
    isRecurringGroup cfg g = true ↔ RecurringSpec cfg g := by
  simp only [isRecurringGroup, RecurringSpec]
  split_ifs with h1 h2 h3 h4
  · simp only [Bool.false_eq_true, false_iff]
    rintro ⟨hmin, -⟩
    omega
  · simp only [Bool.false_eq_true, false_iff]
    rintro ⟨-, hmed, -⟩
    exact hmed h2
  · rw [decide_eq_true_eq] at h3
    simp only [Bool.false_eq_true, false_iff]
    rintro ⟨-, -, hge, -⟩
    linarith
  · simp only [Bool.false_eq_true, false_iff]
    rintro ⟨-, -, -, hne, -⟩
    rw [List.isEmpty_iff] at h4
    exact hne h4
  · rw [decide_eq_true_eq]
    constructor
    · rintro ⟨hlo, hhi⟩
      refine ⟨by omega, h2, ?_, ?_, hlo, hhi⟩
      · rw [decide_eq_true_eq] at h3
        exact le_of_not_lt h3
      · rw [List.isEmpty_iff] at h4
        exact h4
    · rintro ⟨-, -, -, -, hlo, hhi⟩
      exact ⟨hlo, hhi⟩

theorem markRow_fst (cfg : BillDetectionConfig) (ts : List BTxn) (t : BTxn) :
    (markRow cfg ts t).1 = t := by
  rw [markRow]
  cases ha : t.amount
  · rfl
  · dsimp only
    cases hd : t.date
    · rfl
    · rfl

theorem markRow_snd (cfg : BillDetectionConfig) (ts : List BTxn) (t : BTxn) :
    (markRow cfg ts t).2 = true ↔
      ((∃ a, t.amount = some a) ∧ (∃ d, t.date = some d) ∧
        isRecurringGroup cfg (merchant_group ts (normalize_merchant t.merchant)) = true) := by
  rw [markRow]
  cases ha : t.amount <;> cases hd : t.date <;> simp [ha, hd]

/-- Claim C6 (amended): a transaction is tagged is_recurring=true exactly
when it has a numeric amount and parseable date and its normalised-merchant
group satisfies: at least min_occurrences (default 3) valid rows, nonzero
median amount, at least 60% of amounts within amount_tolerance (default 15%)
of the median, and the integer truncation int(np.median(gaps)) of the median
consecutive-day gap within [monthly_min_days, monthly_max_days] (default
[25,35]) — the truncation, not the median itself (see the counterexample).
On the Netflix example exactly the three Netflix rows are tagged. -/
theorem bills_recurring_amended :
    (∀ (cfg : BillDetectionConfig) (g : List PTxn),
      isRecurringGroup cfg g = true ↔ RecurringSpec cfg g) ∧
    (∀ (cfg : BillDetectionConfig) (ts : List BTxn),
      (mark_recurring cfg ts).map Prod.fst = ts) ∧
    (∀ (cfg : BillDetectionConfig) (ts : List BTxn) (p : BTxn × Bool),
      p ∈ mark_recurring cfg ts →
      (p.2 = true ↔ ((∃ a, p.1.amount = some a) ∧ (∃ d, p.1.date = some d) ∧
        RecurringSpec cfg (merchant_group ts (normalize_merchant p.1.merchant))))) ∧
    (mark_recurring cfg0 netflixBatch).map (fun p => p.2) = [true, true, true, false] := by
  refine ⟨isRecurringGroup_iff, ?_, ?_, ?_⟩
  · intro cfg ts
    rw [mark_recurring, List.map_map]
    have hcomp : (Prod.fst ∘ markRow cfg ts) = id := funext (fun t => markRow_fst cfg ts t)
    rw [hcomp, List.map_id]
  · intro cfg ts p hp
    rw [mark_recurring] at hp
    obtain ⟨t, ht, rfl⟩ := List.mem_map.mp hp
    rw [markRow_snd, markRow_fst, isRecurringGroup_iff]
  · have h1 : markRow cfg0 netflixBatch ⟨"Netflix", some (999/100), some ⟨2025, 11, 1⟩⟩ =
        (⟨"Netflix", some (999/100), some ⟨2025, 11, 1⟩⟩, true) := by
      rw [markRow]
      show (_, isRecurringGroup cfg0 (merchant_group netflixBatch (normalize_merchant "Netflix"))) = _
      rw [netflix_group, netflix_rec]
    have h2 : markRow cfg0 netflixBatch ⟨"Netflix", some (999/100), some ⟨2025, 12, 1⟩⟩ =
        (⟨"Netflix", some (999/100), some ⟨2025, 12, 1⟩⟩, true) := by
      rw [markRow]
      show (_, isRecurringGroup cfg0 (merchant_group netflixBatch (normalize_merchant "Netflix"))) = _
      rw [netflix_group, netflix_rec]
    have h3 : markRow cfg0 netflixBatch ⟨"Netflix", some (999/100), some ⟨2026, 1, 1⟩⟩ =
        (⟨"Netflix", some (999/100), some ⟨2026, 1, 1⟩⟩, true) := by
      rw [markRow]
      show (_, isRecurringGroup cfg0 (merchant_group netflixBatch (normalize_merchant "Netflix"))) = _
      rw [netflix_group, netflix_rec]
    have h4 : markRow cfg0 netflixBatch ⟨"Grocery", some 40, some ⟨2026, 1, 15⟩⟩ =
        (⟨"Grocery", some 40, some ⟨2026, 1, 15⟩⟩, false) := by
      rw [markRow]
      show (_, isRecurringGroup cfg0 (merchant_group netflixBatch (normalize_merchant "Grocery"))) = _
      rw [grocery_group, grocery_rec]
    simp only [netflixBatch] at h1 h2 h3 h4
    simp only [mark_recurring, netflixBatch, List.map_cons, List.map_nil, h1, h2, h3, h4]

/-- Witness for C6 (amended): the characterisation instantiated on the
Netflix group, plus the concrete example run. -/
theorem bills_recurring_amended_witness :
    (isRecurringGroup cfg0 netflixGroup = true ↔ RecurringSpec cfg0 netflixGroup) ∧
    (mark_recurring cfg0 netflixBatch).map (fun p => p.2) = [true, true, true, false] :=
  ⟨bills_recurring_amended.1 cfg0 netflixGroup, bills_recurring_amended.2.2.2⟩

/-- Input row of build_bill_calendar (post mark_recurring). -/
structure CalTxn where
  merchant : String
  amount : Option ℚ
  date : Option BDate
  is_recurring : Bool := false
deriving Repr

/-- The frame passed to build_bill_calendar; hasRecurringCol records whether
the is_recurring column exists — the source filters on it only if present. -/
structure CalFrame where
  rows : List CalTxn
  hasRecurringCol : Bool
deriving Repr

/-- One output row of the bill calendar.  last_seen and next_due are day
numbers (the source renders them as YYYY-MM-DD strings, whose lexicographic
order coincides with day-number order). -/
structure CalRow where
  merchant : String
  typical_amount : ℚ
  typical_day : Int
  last_seen : Nat
  next_due : Nat
deriving Repr, DecidableEq

/-- Python round() at exact rational inputs: round half to even. -/
def roundHalfEven (q : ℚ) : Int :=
  let f := ⌊q⌋
  let r := q - f
  if r < 1/2 then f
  else if 1/2 < r then f + 1
  else if f % 2 = 0 then f else f + 1

/-- round(x, 2). -/
def round2 (q : ℚ) : ℚ := (roundHalfEven (q * 100) : ℚ) / 100

/-- The valid rows feeding the calendar, filtered to is_recurring==True rows
when the column exists. -/
def calSource (df : CalFrame) : List PTxn :=
  let valid := df.rows.filterMap (fun t =>
    match t.amount with
    | none => none
    | some a =>
      match t.date with
      | none => none
      | some d => some (PTxn.mk t.merchant a d, t.is_recurring))
  (if df.hasRecurringCol then valid.filter (fun p => p.2) else valid).map (fun p => p.1)

/-- The distinct normalised-merchant keys, in first-occurrence order.
(pandas groupby emits its groups in sorted-key order; any enumeration order
of the distinct keys yields the same calendar up to the final sort, and the
theorems below state the output as a sorted permutation.) -/
def calKeys (src : List PTxn) : List String :=
  (src.map (fun p => normalize_merchant p.merchant)).dedup

/-- The rows of one normalised-merchant group. -/
def calGroup (src : List PTxn) (key : String) : List PTxn :=
  src.filter (fun p => decide (normalize_merchant p.merchant = key))

/-- One calendar row: typical_amount = round(np.median(amounts), 2),
typical_day = int(np.median(days of month)), last_seen = max date,
next_due = last_seen + 30 days. -/
def mkCalRow (key : String) (g : List PTxn) : CalRow :=
  let amounts := g.map (fun p => p.amount)
  let typical_amount := round2 (medianQ amounts)
  let typical_day : Int := ⌊medianQ (g.map (fun p => (p.date.day : ℚ)))⌋
  let last_seen := (g.map (fun p => p.date.dayNumber)).foldr max 0
  ⟨key, typical_amount, typical_day, last_seen, last_seen + 30⟩

/-- sort_values(["next_due", "typical_amount"], ascending=[True, False]). -/
def calLE (a b : CalRow) : Prop :=
  a.next_due < b.next_due ∨
    (a.next_due = b.next_due ∧ b.typical_amount ≤ a.typical_amount)

instance : DecidableRel calLE := fun a b =>
  inferInstanceAs (Decidable (a.next_due < b.next_due ∨
    (a.next_due = b.next_due ∧ b.typical_amount ≤ a.typical_amount)))

instance : IsTotal CalRow calLE := ⟨by
  intro a b
  rcases lt_trichotomy a.next_due b.next_due with h | h | h
  · exact Or.inl (Or.inl h)
  · rcases le_total b.typical_amount a.typical_amount with ha | ha
    · exact Or.inl (Or.inr ⟨h, ha⟩)
    · exact Or.inr (Or.inr ⟨h.symm, ha⟩)
  · exact Or.inr (Or.inl h)⟩

instance : IsTrans CalRow calLE := ⟨by
  intro a b c hab hbc
  rcases hab with h1 | ⟨h1, h1a⟩
  · rcases hbc with h2 | ⟨h2, h2a⟩
    · exact Or.inl (lt_trans h1 h2)
    · exact Or.inl (h2 ▸ h1)
  · rcases hbc with h2 | ⟨h2, h2a⟩
    · exact Or.inl (h1 ▸ h2)
    · exact Or.inr ⟨h1.trans h2, le_trans h2a h1a⟩⟩

/-- build_bill_calendar: one row per normalised-merchant group of the (valid,
recurring-filtered) source rows, sorted by next_due ascending with ties
broken by typical_amount descending. -/
def build_bill_calendar (df : CalFrame) : List CalRow :=
  let src := calSource df
  ((calKeys src).map (fun k => mkCalRow k (calGroup src k))).insertionSort calLE

theorem round2_eq_81_8 : round2 (81/8) = 253/25 := by
  rw [round2, roundHalfEven]
  have hfloor : ⌊(81 : ℚ)/8 * 100⌋ = 1012 := by
    rw [Int.floor_eq_iff]
    norm_num
  rw [hfloor]
  norm_num

theorem round2_eq_999_100 : round2 (999/100) = 999/100 := by
  rw [round2, roundHalfEven]
  have hfloor : ⌊(999 : ℚ)/100 * 100⌋ = 999 := by
    rw [Int.floor_eq_iff]
    norm_num
  rw [hfloor]
  norm_num

/-- The counterexample frame: a recurring group of three $10.125 charges
(10.125 = 81/8 is exactly representable as a binary float, and
round(10.125, 2) = 10.12 both in Python and under round-half-even). -/
def c7CexFrame : CalFrame :=
  { rows := [⟨"acme", some (81/8), some ⟨2025, 1, 1⟩, true⟩,
             ⟨"acme", some (81/8), some ⟨2025, 2, 1⟩, true⟩,
             ⟨"acme", some (81/8), some ⟨2025, 3, 1⟩, true⟩],
    hasRecurringCol := true }

def c7CexSrc : List PTxn :=
  [⟨"acme", 81/8, ⟨2025, 1, 1⟩⟩, ⟨"acme", 81/8, ⟨2025, 2, 1⟩⟩, ⟨"acme", 81/8, ⟨2025, 3, 1⟩⟩]

theorem c7cex_src : calSource c7CexFrame = c7CexSrc := rfl

theorem c7cex_keys : calKeys c7CexSrc = ["acme"] := by decide

theorem c7cex_grp : calGroup c7CexSrc "acme" = c7CexSrc := rfl

theorem c7cex_row : mkCalRow "acme" c7CexSrc =
    ⟨"acme", 253/25, 1, (BDate.mk 2025 3 1).dayNumber, (BDate.mk 2025 3 1).dayNumber + 30⟩ := by
  rw [mkCalRow]
  have hamounts : c7CexSrc.map (fun p => p.amount) = [81/8, 81/8, 81/8] := rfl
  have hdays : c7CexSrc.map (fun p => (p.date.day : ℚ)) = [1, 1, 1] := by
    norm_num [c7CexSrc]
  have hlast : (c7CexSrc.map (fun p => p.date.dayNumber)).foldr max 0 =
      (BDate.mk 2025 3 1).dayNumber := by decide
  rw [hamounts, hdays, hlast, medianQ_three_eq, medianQ_three_eq, round2_eq_81_8]
  norm_num

theorem c7cex_calendar : build_bill_calendar c7CexFrame =
    [⟨"acme", 253/25, 1, (BDate.mk 2025 3 1).dayNumber, (BDate.mk 2025 3 1).dayNumber + 30⟩] := by
  rw [build_bill_calendar]
  rw [show calSource c7CexFrame = c7CexSrc from rfl, c7cex_keys]
  rw [List.map_cons, List.map_nil, c7cex_grp, c7cex_row]
  simp [List.insertionSort]

/-- Counterexample to claim C7: a recurring group of three $10.125 charges
gets typical_amount = round(10.125, 2) = 10.12 = 253/25, which is not the
median of the member amounts (10.125 = 81/8): typical_amount is the median
rounded to 2 decimal places, not the raw median. -/
theorem bill_calendar_cex :
    (build_bill_calendar c7CexFrame).map (fun r => (r.merchant, r.typical_amount)) =
      [("acme", 253/25)] ∧
    medianQ (c7CexSrc.map (fun p => p.amount)) = 81/8 ∧
    (253/25 : ℚ) ≠ 81/8 := by
  refine ⟨?_, ?_, by norm_num⟩
  · rw [c7cex_calendar]
    rfl
  · rw [show c7CexSrc.map (fun p => p.amount) = [81/8, 81/8, 81/8] from rfl]
    exact medianQ_three_eq _

/-- The calendar example frame: the three recurring Netflix rows, last seen
2026-01-01. -/
def c7ExampleFrame : CalFrame :=
  { rows := [⟨"Netflix", some (999/100), some ⟨2025, 11, 1⟩, true⟩,
             ⟨"Netflix", some (999/100), some ⟨2025, 12, 1⟩, true⟩,
             ⟨"Netflix", some (999/100), some ⟨2026, 1, 1⟩, true⟩],
    hasRecurringCol := true }

def c7ExampleSrc : List PTxn :=
  [⟨"Netflix", 999/100, ⟨2025, 11, 1⟩⟩, ⟨"Netflix", 999/100, ⟨2025, 12, 1⟩⟩,
   ⟨"Netflix", 999/100, ⟨2026, 1, 1⟩⟩]

theorem c7ex_keys : calKeys c7ExampleSrc = ["netflix"] := by decide

theorem c7ex_grp : calGroup c7ExampleSrc "netflix" = c7ExampleSrc := rfl

theorem c7ex_row : mkCalRow "netflix" c7ExampleSrc =
    ⟨"netflix", 999/100, 1, (BDate.mk 2026 1 1).dayNumber,
      (BDate.mk 2026 1 1).dayNumber + 30⟩ := by
  rw [mkCalRow]
  have hamounts : c7ExampleSrc.map (fun p => p.amount) = [999/100, 999/100, 999/100] := rfl
  have hdays : c7ExampleSrc.map (fun p => (p.date.day : ℚ)) = [1, 1, 1] := by
    norm_num [c7ExampleSrc]
  have hlast : (c7ExampleSrc.map (fun p => p.date.dayNumber)).foldr max 0 =
      (BDate.mk 2026 1 1).dayNumber := by decide
  rw [hamounts, hdays, hlast, medianQ_three_eq, medianQ_three_eq, round2_eq_999_100]
  norm_num

/-- Claim C7 (amended): each calendar row's typical_amount is the median of
the member amounts rounded to 2 decimal places (round half to even),
typical_day is the integer truncation of the median day of month, last_seen
is the maximum member date and next_due is last_seen plus 30 days; the
output is a permutation of one row per group, sorted by next_due ascending
with ties broken by typical_amount descending; a group last seen 2026-01-01
projects next_due = 2026-01-31. -/
theorem bill_calendar_amended :
    (∀ df : CalFrame, (build_bill_calendar df).Perm
        ((calKeys (calSource df)).map (fun k => mkCalRow k (calGroup (calSource df) k)))) ∧
    (∀ df : CalFrame, (build_bill_calendar df).Sorted calLE) ∧
    (∀ (key : String) (g : List PTxn),
      (mkCalRow key g).typical_amount = round2 (medianQ (g.map (fun p => p.amount))) ∧
      (mkCalRow key g).typical_day = ⌊medianQ (g.map (fun p => (p.date.day : ℚ)))⌋ ∧
      (mkCalRow key g).last_seen = (g.map (fun p => p.date.dayNumber)).foldr max 0 ∧
      (mkCalRow key g).next_due = (mkCalRow key g).last_seen + 30) ∧
    (build_bill_calendar c7ExampleFrame =
      [⟨"netflix", 999/100, 1, (BDate.mk 2026 1 1).dayNumber,
        (BDate.mk 2026 1 1).dayNumber + 30⟩] ∧
     (BDate.mk 2026 1 1).dayNumber + 30 = (BDate.mk 2026 1 31).dayNumber) := by
  refine ⟨fun df => List.perm_insertionSort calLE _,
    fun df => List.sorted_insertionSort calLE _,
    fun key g => ⟨rfl, rfl, rfl, rfl⟩, ?_, by decide⟩
  rw [build_bill_calendar]
  rw [show calSource c7ExampleFrame = c7ExampleSrc from rfl, c7ex_keys]
  rw [List.map_cons, List.map_nil, c7ex_grp, c7ex_row]
  simp [List.insertionSort]

/-- Witness for C7 (amended): sortedness and the concrete projected calendar
of the Netflix group last seen 2026-01-01. -/
theorem bill_calendar_amended_witness :
    (build_bill_calendar c7ExampleFrame).Sorted calLE ∧
    build_bill_calendar c7ExampleFrame =
      [⟨"netflix", 999/100, 1, (BDate.mk 2026 1 1).dayNumber,
        (BDate.mk 2026 1 1).dayNumber + 30⟩] :=
  ⟨bill_calendar_amended.2.1 c7ExampleFrame, bill_calendar_amended.2.2.2.1⟩
